import Mathlib

/-!
# Verification of the resume-analyzer scoring pipeline

Shallow embedding of the algorithmic core of `src/backend/server.js`
(text extraction dispatch, skill/keyword extraction, ATS heuristic
score, TF-IDF cosine match score, ranking and the upload validation
gate), with theorems settling the specification's claims about it.

Strings are modelled as Lean `String`s and handled through their
character lists; JavaScript number arithmetic on the score paths is
modelled with `ℕ` where the code only adds and clamps integers, and
with `ℝ` where the code computes logarithms, square roots and
divisions.
-/

namespace ResumeAnalyzer

/-- De-duplication keeping the first occurrence of each element, in
order — the behaviour of JavaScript `[...new Set(xs)]`. `seen` tracks
the elements already emitted. -/
def dedupFirstAux {α : Type} [DecidableEq α] : List α → List α → List α
  | [], _ => []
  | x :: xs, seen =>
    if x ∈ seen then dedupFirstAux xs seen
    else x :: dedupFirstAux xs (x :: seen)

/-- JavaScript `[...new Set(xs)]`: first occurrences, in order. -/
def dedupFirst {α : Type} [DecidableEq α] (l : List α) : List α :=
  dedupFirstAux l []

/-- JavaScript `String.prototype.toLowerCase` on the ASCII fragment:
lowercase every character. (Defined on the character list so that it
evaluates by kernel reduction; it agrees with `String.toLower`.) -/
def jsToLower (s : String) : String := String.mk (s.data.map Char.toLower)

/-- Substring containment on character lists: JavaScript
`s.includes(pat)`. -/
def containsSub (pat : List Char) (s : List Char) : Bool :=
  s.tails.any (fun t => pat.isPrefixOf t)

/-- JavaScript `s.startsWith(pre)`. -/
def jsStartsWith (pre s : String) : Bool :=
  pre.data.isPrefixOf s.data

/-- The fixed skill vocabulary of `extractSkills` (server.js:182-197),
in source order. -/
def commonSkills : List String := [
  "python", "java", "javascript", "typescript", "c++", "c#", "ruby", "php", "swift", "kotlin",
  "react", "angular", "vue", "svelte", "nextjs", "gatsby", "redux",
  "nodejs", "node.js", "express", "nestjs", "django", "flask", "spring", "laravel",
  "mongodb", "mysql", "postgresql", "redis", "dynamodb", "cassandra", "sql", "nosql",
  "aws", "azure", "gcp", "google cloud", "heroku", "digitalocean",
  "docker", "kubernetes", "jenkins", "gitlab ci", "github actions", "terraform", "ansible",
  "git", "github", "bitbucket", "jira", "confluence",
  "html", "css", "sass", "less", "bootstrap", "tailwind", "material-ui",
  "rest api", "graphql", "grpc", "soap", "websocket",
  "microservices", "serverless", "devops", "ci/cd", "agile", "scrum", "kanban",
  "machine learning", "deep learning", "ai", "data science", "tensorflow", "pytorch", "keras",
  "pandas", "numpy", "scikit-learn", "opencv",
  "testing", "jest", "mocha", "pytest", "junit", "selenium", "cypress",
  "linux", "unix", "bash", "shell scripting", "windows", "macos"]

/-- `extractSkills` (server.js:181-203): lowercase the text, keep the
vocabulary entries contained in it as substrings (vocabulary order),
de-duplicate keeping first occurrences (`[...new Set(...)]`), take the
first 12. -/
def extractSkills (text : String) : List String :=
  let textLower := jsToLower text
  let foundSkills := commonSkills.filter (fun skill => containsSub skill.data textLower.data)
  (dedupFirst foundSkills).take 12

/-! ## Regular-expression matchers for the ATS heuristics

The analyze route (server.js:513-538) tests a handful of regular
expressions against the resume text. They are embedded as
backtracking matchers over character lists: a matcher consumes a
prefix of the input and returns every possible remainder, and a
pattern occurs in a string when matching succeeds at some suffix
(`\b` word-boundary anchors are not modelled; no claim depends on
boundary behaviour, and every pattern requires at least one concrete
character, so all predicates are `false` on the empty string exactly
as in the source). -/

/-- Match one character of a class. -/
def charCls (p : Char → Bool) : List Char → List (List Char)
  | [] => []
  | c :: cs => if p c then [cs] else []

/-- Sequencing of matchers. -/
def seqM (f g : List Char → List (List Char)) (cs : List Char) : List (List Char) :=
  (f cs).flatMap g

/-- Alternation of matchers. -/
def altM (f g : List Char → List (List Char)) (cs : List Char) : List (List Char) :=
  f cs ++ g cs

/-- Zero-or-one occurrence (`?`). -/
def optM (f : List Char → List (List Char)) (cs : List Char) : List (List Char) :=
  cs :: f cs

/-- One-or-more characters of a class (`+`): all remainders after
consuming 1 up to the maximal run. -/
def rep1 (p : Char → Bool) : List Char → List (List Char)
  | [] => []
  | c :: cs => if p c then cs :: rep1 p cs else []

/-- A pattern occurs in the text when the matcher succeeds at some
start position. -/
def matchesSomewhere (f : List Char → List (List Char)) (s : List Char) : Bool :=
  s.tails.any (fun t => !(f t).isEmpty)

/-- Character class `[A-Za-z0-9._%+-]` (email local part). -/
def emailLocalChar (c : Char) : Bool :=
  c.isAlphanum || c = '.' || c = '_' || c = '%' || c = '+' || c = '-'

/-- Character class `[A-Za-z0-9.-]` (email domain). -/
def emailDomChar (c : Char) : Bool :=
  c.isAlphanum || c = '.' || c = '-'

/-- Character class `[A-Z|a-z]` of the email TLD — the `|` inside the
bracket in the source regex is a literal pipe character. -/
def emailTldChar (c : Char) : Bool :=
  c.isAlpha || c = '|'

/-- Matcher for `[A-Za-z0-9._%+-]+@[A-Za-z0-9.-]+\.[A-Z|a-z]{2,}`
(server.js:516; two TLD characters suffice for an occurrence). -/
def emailM : List Char → List (List Char) :=
  seqM (rep1 emailLocalChar)
    (seqM (charCls (· = '@'))
      (seqM (rep1 emailDomChar)
        (seqM (charCls (· = '.'))
          (seqM (charCls emailTldChar) (charCls emailTldChar)))))

/-- `hasEmail` test of the analyze route (server.js:516). -/
def hasEmail (text : String) : Bool :=
  matchesSomewhere emailM text.data

/-- Character class `[-.\s]` (phone separators). -/
def phoneSepChar (c : Char) : Bool :=
  c = '-' || c = '.' || c.isWhitespace

/-- Matcher for the phone regex
`(?:\+?\d{1,3}[-.\s]?)?\(?\d{3}\)?[-.\s]?\d{3}[-.\s]?\d{4}`
(server.js:517). -/
def phoneM : List Char → List (List Char) :=
  let digit := charCls Char.isDigit
  let sep := optM (charCls phoneSepChar)
  let d13 := seqM digit (optM (seqM digit (optM digit)))
  let d3 := seqM digit (seqM digit digit)
  let d4 := seqM digit (seqM digit (seqM digit digit))
  seqM (optM (seqM (optM (charCls (· = '+'))) (seqM d13 sep)))
    (seqM (optM (charCls (· = '(')))
      (seqM d3
        (seqM (optM (charCls (· = ')')))
          (seqM sep (seqM d3 (seqM sep d4))))))

/-- `hasPhone` test of the analyze route (server.js:517). -/
def hasPhone (text : String) : Bool :=
  matchesSomewhere phoneM text.data

/-- Case-insensitive alternation of literal words, e.g.
`/summary|objective|about|profile/i.test(text)`: some word is a
substring of the lowercased text. -/
def testAnyWord (words : List String) (text : String) : Bool :=
  words.any (fun w => containsSub w.data (jsToLower text).data)

/-- `hasSummary` (server.js:521). -/
def hasSummary (text : String) : Bool :=
  testAnyWord ["summary", "objective", "about", "profile"] text

/-- `hasExperience` (server.js:522). -/
def hasExperience (text : String) : Bool :=
  testAnyWord ["experience", "employment", "work history"] text

/-- `hasEducation` (server.js:523). -/
def hasEducation (text : String) : Bool :=
  testAnyWord ["education", "degree", "university", "college"] text

/-- `hasSkills` (server.js:524). -/
def hasSkillsSection (text : String) : Bool :=
  testAnyWord ["skills", "technical", "technologies", "tools"] text

/-- The fixed action-verb list (server.js:531). -/
def actionVerbs : List String :=
  ["developed", "created", "managed", "led", "implemented",
   "designed", "built", "improved", "increased", "reduced"]

/-- `actionVerbCount` (server.js:532): how many of the ten verbs occur
in the text, case-insensitively. -/
def actionVerbCount (text : String) : ℕ :=
  (actionVerbs.filter (fun v => containsSub v.data (jsToLower text).data)).length

/-- The action-verb bonus `Math.min(actionVerbCount * 2, 10)`
(server.js:533). -/
def actionVerbBonus (text : String) : ℕ :=
  min (actionVerbCount text * 2) 10

/-- Matcher for `\d+%|\d+\+|\$\d+|[0-9]+` (server.js:535). -/
def numbersM : List Char → List (List Char) :=
  altM (seqM (rep1 Char.isDigit) (charCls (· = '%')))
    (altM (seqM (rep1 Char.isDigit) (charCls (· = '+')))
      (altM (seqM (charCls (· = '$')) (rep1 Char.isDigit))
        (rep1 Char.isDigit)))

/-- `hasNumbers` (server.js:535). -/
def hasNumbers (text : String) : Bool :=
  matchesSomewhere numbersM text.data

/-- The ATS heuristic score of the analyze route (server.js:513-538):
base 50, independent additive bonuses, clamped to at most 100. -/
def atsScore (text : String) : ℕ :=
  min (50
    + (if hasEmail text then 5 else 0)
    + (if hasPhone text then 5 else 0)
    + (if hasSummary text then 5 else 0)
    + (if hasExperience text then 10 else 0)
    + (if hasEducation text then 5 else 0)
    + (if hasSkillsSection text then 10 else 0)
    + actionVerbBonus text
    + (if hasNumbers text then 5 else 0)) 100

/-! ## TF-IDF cosine similarity (`calculateMatchScore`, server.js:205-251)

The route code builds two TF-IDF vectors over the two-document corpus
{resume, job description}, takes the union vocabulary, and computes
cosine similarity scaled to a percentage with two decimals.

The vectorizer itself is the external `natural` library's `TfIdf`.
Modelled from the spec: §4.5 fixes a term-frequency ×
inverse-document-frequency weighting computed over exactly the two
documents, a union vocabulary with weight 0 for missing terms, cosine
similarity with a zero-magnitude guard, and the identical-text example
scoring ≈ 100; tokenization is realized as maximal runs of word
characters in the lowercased text (the `natural` word tokenizer's
ASCII behaviour), tf as the raw count of a term in its document, and
idf as `1 + log(2 / (1 + df))` where `df ∈ {1, 2}` is how many of the
two documents contain the term (the weighting of the `natural`
library; a term of both documents keeps the positive weight
`1 + log(2/3)`, which the spec's identical-text example requires). -/

/-- Word characters of the tokenizer: `[A-Za-z0-9_]`. -/
def isWordChar (c : Char) : Bool :=
  c.isAlphanum || c = '_'

/-- Split a character list into the maximal runs of characters
satisfying `p` (the accumulator carries the current run, reversed). -/
def tokensBy (p : Char → Bool) : List Char → List Char → List (List Char)
  | [], acc => if acc.isEmpty then [] else [acc.reverse]
  | c :: cs, acc =>
    if p c then tokensBy p cs (c :: acc)
    else if acc.isEmpty then tokensBy p cs []
    else acc.reverse :: tokensBy p cs []

/-- The token list of a document: lowercase, then maximal word-character
runs. -/
def wordTokens (s : String) : List String :=
  (tokensBy isWordChar (jsToLower s).data []).map String.mk

/-- The distinct terms of a document, in first-occurrence order
(`listTerms`; its sort by weight only permutes the list and cannot
change the sums below, so it is not modelled). -/
def termList (s : String) : List String :=
  dedupFirst (wordTokens s)

/-- Term frequency: raw count of the term among the document's
tokens. -/
def tf (doc : String) (t : String) : ℕ :=
  (wordTokens doc).count t

/-- Document frequency of a term over the two-document corpus. -/
def df (a b : String) (t : String) : ℕ :=
  (if t ∈ wordTokens a then 1 else 0) + (if t ∈ wordTokens b then 1 else 0)

/-- Inverse document frequency over the two-document corpus:
`1 + log(documents / (1 + df))` with `documents = 2`. -/
noncomputable def idf (a b : String) (t : String) : ℝ :=
  1 + Real.log (2 / (1 + (df a b t : ℝ)))

/-- The TF-IDF weight of term `t` for document `doc` of the corpus
`{a, b}` (0 whenever `t` does not occur in `doc`). -/
noncomputable def tfidfVec (doc a b : String) (t : String) : ℝ :=
  (tf doc t : ℝ) * idf a b t

/-- The union vocabulary `allTerms` (server.js:224-227): terms of
document 1 then document 2, de-duplicated. -/
def allTerms (a b : String) : List String :=
  dedupFirst (termList a ++ termList b)

/-- `dotProduct` (server.js:239). -/
noncomputable def dotProduct (a b : String) : ℝ :=
  ((allTerms a b).map (fun t => tfidfVec a a b t * tfidfVec b a b t)).sum

/-- `magnitude1` / `magnitude2` (server.js:240-241). -/
noncomputable def magnitude (doc a b : String) : ℝ :=
  Real.sqrt (((allTerms a b).map (fun t => tfidfVec doc a b t * tfidfVec doc a b t)).sum)

/-- JavaScript `Math.round`: round half towards positive infinity. -/
noncomputable def jsRound (x : ℝ) : ℤ :=
  ⌊x + 1 / 2⌋

open Classical in
/-- `calculateMatchScore` (server.js:205-251): 0 for an empty (falsy)
argument or a zero-magnitude vector, otherwise cosine similarity
scaled to a percentage and rounded to two decimals
(`Math.round(similarity * 100 * 100) / 100`). The shallow embedding
is total, so the `catch` branch that also returns 0 has no separate
representation. -/
noncomputable def calculateMatchScore (resumeText jobDescription : String) : ℝ :=
  if resumeText = "" ∨ jobDescription = "" then 0
  else if magnitude resumeText resumeText jobDescription = 0 ∨
          magnitude jobDescription resumeText jobDescription = 0 then 0
  else (jsRound (dotProduct resumeText jobDescription /
          (magnitude resumeText resumeText jobDescription *
           magnitude jobDescription resumeText jobDescription) * 100 * 100) : ℝ) / 100

/-! ## Keyword extraction (analyze route, server.js:568-583) -/

/-- Lowercase letters `a`-`z` — the only characters that survive
`replace(/[^a-z\s]/g, ' ')` inside a token. -/
def isLowerAlpha (c : Char) : Bool :=
  'a' ≤ c && c ≤ 'z'

/-- The keyword tokens: lowercase, replace every character outside
`[a-z\s]` by a space, split on whitespace runs (equivalently: maximal
runs of `[a-z]`), keep tokens of length > 3. -/
def keywordTokens (text : String) : List String :=
  ((tokensBy isLowerAlpha (jsToLower text).data []).map String.mk).filter
    (fun w => 3 < w.length)

/-- The stop-word list of the analyze route (server.js:578). -/
def keywordStopWords : List String :=
  ["this", "that", "with", "from", "have", "been", "were", "they", "your", "will"]

/-- `Object.entries(wordFreq)`: each distinct token (first-occurrence
order, as JavaScript object insertion order) with its frequency. -/
def wordFreqList (text : String) : List (String × ℕ) :=
  (dedupFirst (keywordTokens text)).map
    (fun w => (w, (keywordTokens text).count w))

/-- The keyword list (server.js:579-583): drop stop words, sort by
frequency descending (JavaScript's stable `sort` with comparator
`b[1] - a[1]`, modelled by the stable insertion sort), take the first
8, keep the words. -/
def keywords (text : String) : List String :=
  ((((wordFreqList text).filter
      (fun p => ¬ keywordStopWords.contains p.1)).insertionSort
      (fun p q => q.2 ≤ p.2)).take 8).map Prod.fst

/-! ## Upload validation gate (upload route, server.js:429-453) -/

/-- JavaScript `String.prototype.trim` (ASCII whitespace): drop
whitespace from both ends. -/
def jsTrim (s : String) : String :=
  String.mk (((s.data.dropWhile Char.isWhitespace).reverse.dropWhile
    Char.isWhitespace).reverse)

/-- The document persisted by the upload route (the fields derived
from the extracted text; binary buffer and user id are opaque to the
gate and omitted). -/
structure SavedResume where
  filename : String
  extractedText : String
  jobTitle : String
deriving DecidableEq, Repr

/-- Outcome of the post-extraction part of the upload route: either
the 400 "could not extract sufficient text" rejection, or the saved
document. -/
inductive UploadOutcome where
  | insufficientText : UploadOutcome
  | saved : SavedResume → UploadOutcome
deriving DecidableEq, Repr

/-- The post-extraction validation gate and save (server.js:429-453):
reject when the extracted text is falsy or its trimmed length is
below 50, otherwise persist the resume (with the `jobTitle || 'Not
Specified'` default). -/
def uploadValidateAndSave (filename extractedText jobTitle : String) : UploadOutcome :=
  if extractedText = "" ∨ (jsTrim extractedText).length < 50 then
    .insufficientText
  else
    .saved ⟨filename, extractedText,
      if jobTitle = "" then "Not Specified" else jobTitle⟩

/-! ## Text extraction dispatch (server.js:100-164)

The PDF, Word and OCR engines are external libraries (`pdf-parse`,
`mammoth`, `tesseract.js`); they are collaborators passed in as
functions from a raw byte buffer to either extracted text or a thrown
error message. The dispatch, the wrapping of Word/OCR errors and the
unsupported-format error are the repository's code. -/

/-- A raw byte buffer. -/
abbrev Buffer : Type := List ℕ

/-- The three external extraction engines. -/
structure Extractors where
  pdfParseText : Buffer → Except String String
  mammothRawText : Buffer → Except String String
  tesseractText : Buffer → Except String String

/-- `extractTextFromWord` (server.js:103-111): result of mammoth, with
any engine error replaced by the fixed message. -/
def extractTextFromWord (ex : Extractors) (buffer : Buffer) : Except String String :=
  match ex.mammothRawText buffer with
  | .ok v => .ok v
  | .error _ => .error "Failed to extract text from Word document"

/-- `extractTextFromImage` (server.js:114-133): result of Tesseract
OCR, with any engine error replaced by the fixed message. -/
def extractTextFromImage (ex : Extractors) (buffer : Buffer) : Except String String :=
  match ex.tesseractText buffer with
  | .ok t => .ok t
  | .error _ => .error "Failed to extract text from image using OCR"

/-- `extractTextFromFile` (server.js:136-164): dispatch on the declared
mime type; the outer `try`/`catch` rethrows unchanged. -/
def extractTextFromFile (ex : Extractors) (buffer : Buffer) (mimetype : String) :
    Except String String :=
  if mimetype = "application/pdf" then
    ex.pdfParseText buffer
  else if mimetype = "application/msword" ∨
          mimetype = "application/vnd.openxmlformats-officedocument.wordprocessingml.document" then
    extractTextFromWord ex buffer
  else if jsStartsWith "image/" mimetype then
    extractTextFromImage ex buffer
  else
    .error "Unsupported file type"

/-! ## Recruiter ranking (rank route, server.js:653-692) -/

/-- A stored resume as read back for ranking (fields the rank route
uses; the contact-info fields of the response are per-resume regex
extractions that no claim touches and are omitted). -/
structure StoredResume where
  filename : String
  candidateName : String
  jobTitle : String
  extractedText : String

/-- One entry of the ranked response. -/
structure RankedCandidate where
  filename : String
  candidateName : String
  jobTitle : String
  matchScore : ℝ
  skills : List String

open Classical in
/-- The rank route's scoring and sort (server.js:663-682): score every
resume against the job description, then sort descending by
`matchScore` (JavaScript's stable `sort` with comparator
`b.matchScore - a.matchScore`, modelled by the stable insertion
sort). -/
noncomputable def rankResumes (resumes : List StoredResume) (jobDescription : String) :
    List RankedCandidate :=
  (resumes.map (fun r =>
    { filename := r.filename
      candidateName := r.candidateName
      jobTitle := r.jobTitle
      matchScore := calculateMatchScore r.extractedText jobDescription
      skills := extractSkills r.extractedText })).insertionSort
    (fun p q => q.matchScore ≤ p.matchScore)

/-! ## Helper lemmas -/

theorem mem_dedupFirstAux {α : Type} [DecidableEq α] :
    ∀ (l seen : List α) (a : α), a ∈ dedupFirstAux l seen ↔ a ∈ l ∧ a ∉ seen := by
  intro l
  induction l with
  | nil => simp [dedupFirstAux]
  | cons x xs ih =>
    intro seen a
    simp only [dedupFirstAux]
    by_cases hx : x ∈ seen
    · rw [if_pos hx, ih]
      constructor
      · rintro ⟨ha, hs⟩
        exact ⟨List.mem_cons_of_mem _ ha, hs⟩
      · rintro ⟨ha, hs⟩
        rcases List.mem_cons.mp ha with rfl | ha
        · exact absurd hx hs
        · exact ⟨ha, hs⟩
    · rw [if_neg hx]
      by_cases hax : a = x
      · subst hax
        simp [hx]
      · simp only [List.mem_cons, hax, false_or]
        rw [ih]
        constructor
        · rintro ⟨ha, hs⟩
          exact ⟨ha, fun h => hs (List.mem_cons_of_mem _ h)⟩
        · rintro ⟨ha, hs⟩
          refine ⟨ha, fun h => ?_⟩
          rcases List.mem_cons.mp h with h' | h'
          · exact hax h'
          · exact hs h'

theorem mem_dedupFirst {α : Type} [DecidableEq α] (l : List α) (a : α) :
    a ∈ dedupFirst l ↔ a ∈ l := by
  rw [dedupFirst, mem_dedupFirstAux]
  simp

theorem dedupFirstAux_sublist {α : Type} [DecidableEq α] :
    ∀ (l seen : List α), List.Sublist (dedupFirstAux l seen) l := by
  intro l
  induction l with
  | nil => intro seen; simp [dedupFirstAux]
  | cons x xs ih =>
    intro seen
    simp only [dedupFirstAux]
    by_cases hx : x ∈ seen
    · rw [if_pos hx]
      exact (ih seen).trans (List.sublist_cons_self x xs)
    · rw [if_neg hx]
      exact List.Sublist.cons₂ x (ih (x :: seen))

theorem dedupFirst_sublist {α : Type} [DecidableEq α] (l : List α) :
    List.Sublist (dedupFirst l) l :=
  dedupFirstAux_sublist l []

theorem dedupFirstAux_nodup {α : Type} [DecidableEq α] :
    ∀ (l seen : List α), (dedupFirstAux l seen).Nodup := by
  intro l
  induction l with
  | nil => intro seen; simp [dedupFirstAux]
  | cons x xs ih =>
    intro seen
    simp only [dedupFirstAux]
    by_cases hx : x ∈ seen
    · rw [if_pos hx]; exact ih seen
    · rw [if_neg hx]
      refine List.nodup_cons.mpr ⟨?_, ih (x :: seen)⟩
      intro hmem
      exact ((mem_dedupFirstAux _ _ _).mp hmem).2 (List.mem_cons_self x seen)

theorem dedupFirst_nodup {α : Type} [DecidableEq α] (l : List α) :
    (dedupFirst l).Nodup :=
  dedupFirstAux_nodup l []

/-! Evaluation sanity checks for the executable definitions. -/

example : extractSkills "git" = ["git"] := by decide
example : extractSkills "I know JavaScript well" = ["java", "javascript"] := by decide
example : atsScore "" = 50 := by decide
example : hasEmail "contact: jo.hn@mail.co now" = true := by decide
example : hasEmail "no at sign here" = false := by decide
example : hasPhone "call 123-456-7890 now" = true := by decide
example : hasNumbers "a 7 b" = true := by decide
example : hasNumbers "abc" = false := by decide
example : actionVerbCount "Developed and led a team" = 2 := by decide
example : wordTokens "Full-Stack dev, dev!" = ["full", "stack", "dev", "dev"] := by decide
example : wordTokens " " = [] := by decide
example : wordTokens "" = [] := by decide
example : keywords "alpha beta alpha gamma x with with with" = ["alpha", "beta", "gamma"] := by decide

theorem isPrefixOf_trans {l1 l2 l3 : List Char} (h12 : l1.isPrefixOf l2 = true)
    (h23 : l2.isPrefixOf l3 = true) : l1.isPrefixOf l3 = true := by
  induction l1 generalizing l2 l3 with
  | nil => simp [List.isPrefixOf]
  | cons a as ih =>
    match l2 with
    | [] => simp [List.isPrefixOf] at h12
    | b :: bs =>
      match l3 with
      | [] => simp [List.isPrefixOf] at h23
      | c :: cs =>
        simp only [List.isPrefixOf, Bool.and_eq_true, beq_iff_eq] at h12 h23 ⊢
        exact ⟨h12.1.trans h23.1, ih h12.2 h23.2⟩

theorem containsSub_mono {p q s : List Char} (hpq : p.isPrefixOf q = true)
    (h : containsSub q s = true) : containsSub p s = true := by
  unfold containsSub at h ⊢
  rcases List.any_eq_true.mp h with ⟨t, ht, hq⟩
  exact List.any_eq_true.mpr ⟨t, ht, isPrefixOf_trans hpq hq⟩

/-! ## Claim theorems -/

/-- C1: for every input text the ATS heuristic score is an integer in
[0,100] — it starts at base 50, gains only additive bonuses, is
clamped to at most 100 and never drops below 50 — and for the empty
string it is exactly 50. -/
theorem ats_score_in_range :
    (∀ text : String, 50 ≤ atsScore text ∧ atsScore text ≤ 100) ∧ atsScore "" = 50 := by
  constructor
  · intro text
    unfold atsScore actionVerbBonus
    constructor
    · split_ifs <;> omega
    · exact Nat.min_le_right _ _
  · decide

/-- C2: `extractSkills` always returns a de-duplicated list of at most
12 skills which is a sublist of the fixed vocabulary (hence in
vocabulary order), every returned skill occurs as a lowercase
substring of the text, the keyword extraction returns at most 8
tokens, and both are deterministic functions of the text. -/
theorem extract_skills_keywords_bounded :
    ∀ text : String,
      (extractSkills text).length ≤ 12 ∧
      (extractSkills text).Nodup ∧
      List.Sublist (extractSkills text) commonSkills ∧
      (∀ s ∈ extractSkills text, containsSub s.data (jsToLower text).data = true) ∧
      (keywords text).length ≤ 8 ∧
      (∀ text2 : String, text = text2 →
        extractSkills text = extractSkills text2 ∧ keywords text = keywords text2) := by
  intro text
  refine ⟨?_, ?_, ?_, ?_, ?_, ?_⟩
  · simp only [extractSkills]
    exact (List.length_take_le _ _)
  · exact (List.take_sublist _ _).nodup (dedupFirst_nodup _)
  · exact ((List.take_sublist _ _).trans (dedupFirst_sublist _)).trans
      (List.filter_sublist _)
  · intro s hs
    simp only [extractSkills] at hs
    have hs1 : s ∈ dedupFirst (commonSkills.filter
        (fun skill => containsSub skill.data (jsToLower text).data)) :=
      (List.take_sublist _ _).mem hs
    have hs2 := (mem_dedupFirst _ _).mp hs1
    exact (List.mem_filter.mp hs2).2
  · simp only [keywords, List.length_map]
    exact List.length_take_le _ _
  · intro text2 h
    subst h
    exact ⟨rfl, rfl⟩

/-- C2 witness: concrete instance discharging the hypotheses of the
membership and determinism conjuncts. -/
theorem extract_skills_keywords_bounded_witness :
    containsSub "git".data (jsToLower "git").data = true ∧
    extractSkills "git" = extractSkills "git" :=
  ⟨(extract_skills_keywords_bounded "git").2.2.2.1 "git" (by decide),
   ((extract_skills_keywords_bounded "git").2.2.2.2.2 "git" rfl).1⟩

/-- C9: the action-verb bonus of the ATS score equals
`min(count × 2, 10)` where `count` is the number of matches among the
fixed list of ten verbs, tested case-insensitively, so the bonus is at
most +10; and the bonus enters the score additively before the final
clamp. -/
theorem action_verb_bonus_capped :
    ∀ text : String,
      actionVerbBonus text = min (actionVerbCount text * 2) 10 ∧
      actionVerbCount text =
        (actionVerbs.filter (fun v => containsSub v.data (jsToLower text).data)).length ∧
      actionVerbs = ["developed", "created", "managed", "led", "implemented",
        "designed", "built", "improved", "increased", "reduced"] ∧
      actionVerbCount text ≤ 10 ∧
      actionVerbBonus text ≤ 10 ∧
      atsScore text = min (50
        + (if hasEmail text then 5 else 0)
        + (if hasPhone text then 5 else 0)
        + (if hasSummary text then 5 else 0)
        + (if hasExperience text then 10 else 0)
        + (if hasEducation text then 5 else 0)
        + (if hasSkillsSection text then 10 else 0)
        + min (actionVerbCount text * 2) 10
        + (if hasNumbers text then 5 else 0)) 100 := by
  intro text
  refine ⟨rfl, rfl, rfl, ?_, Nat.min_le_right _ _, rfl⟩
  exact le_trans (List.length_filter_le _ _) (by decide)

/-- C6: the post-extraction gate rejects with the insufficient-text
condition exactly when the trimmed extracted text is shorter than 50
characters, and otherwise the resume is persisted with exactly the
extracted text (nothing is ever persisted on rejection: the outcome is
one of the two); at the boundary, 49 trimmed characters fail and 50
pass. -/
theorem upload_gate_boundary :
    (∀ filename extractedText jobTitle : String,
      (uploadValidateAndSave filename extractedText jobTitle = .insufficientText ↔
        (jsTrim extractedText).length < 50) ∧
      (uploadValidateAndSave filename extractedText jobTitle = .insufficientText ∨
        uploadValidateAndSave filename extractedText jobTitle =
          .saved ⟨filename, extractedText,
            if jobTitle = "" then "Not Specified" else jobTitle⟩)) ∧
    uploadValidateAndSave "r.pdf" (String.mk (List.replicate 49 'a')) "dev" =
      .insufficientText ∧
    uploadValidateAndSave "r.pdf" (String.mk (List.replicate 50 'a')) "dev" =
      .saved ⟨"r.pdf", String.mk (List.replicate 50 'a'), "dev"⟩ := by
  refine ⟨?_, by decide, by decide⟩
  intro filename extractedText jobTitle
  have hcond : (extractedText = "" ∨ (jsTrim extractedText).length < 50) ↔
      (jsTrim extractedText).length < 50 := by
    constructor
    · rintro (h | h)
      · subst h; decide
      · exact h
    · exact Or.inr
  constructor
  · unfold uploadValidateAndSave
    by_cases h : (jsTrim extractedText).length < 50
    · rw [if_pos (hcond.mpr h)]
      simp [h]
    · rw [if_neg (fun hc => h (hcond.mp hc))]
      simp [h]
  · unfold uploadValidateAndSave
    by_cases h : extractedText = "" ∨ (jsTrim extractedText).length < 50
    · rw [if_pos h]; left; rfl
    · rw [if_neg h]; right; rfl

/-- C7: for every set of stored resumes and every job description, the
rank route's output is sorted non-increasing by `matchScore`. -/
theorem rank_output_sorted :
    ∀ (resumes : List StoredResume) (jobDescription : String),
      (rankResumes resumes jobDescription).Pairwise
        (fun p q => q.matchScore ≤ p.matchScore) := by
  intro resumes jobDescription
  haveI : IsTotal RankedCandidate (fun p q => q.matchScore ≤ p.matchScore) :=
    ⟨fun a b => le_total b.matchScore a.matchScore⟩
  haveI : IsTrans RankedCandidate (fun p q => q.matchScore ≤ p.matchScore) :=
    ⟨fun _ _ _ h1 h2 => le_trans h2 h1⟩
  exact List.sorted_insertionSort _ _

/-- C10: skill matching is lowercase substring containment, so any text
containing "javascript" also reports "java", which survives the
12-element truncation as the second vocabulary entry. -/
theorem javascript_implies_java :
    ∀ text : String,
      containsSub "javascript".data (jsToLower text).data = true →
      "java" ∈ extractSkills text := by
  intro text h
  have hj : containsSub "java".data (jsToLower text).data = true :=
    containsSub_mono (by decide) h
  simp only [extractSkills]
  have hcs : commonSkills = "python" :: "java" :: commonSkills.tail.tail := rfl
  rw [hcs]
  by_cases hpy : containsSub "python".data (jsToLower text).data = true
  · rw [List.filter_cons_of_pos (by simpa using hpy),
        List.filter_cons_of_pos (by simpa using hj)]
    rw [dedupFirst, dedupFirstAux, if_neg (by simp),
        dedupFirstAux, if_neg (by simp)]
    have : ∀ (l : List String),
        ("python" :: "java" :: l).take 12 = "python" :: "java" :: l.take 10 := fun l => rfl
    rw [this]
    simp
  · rw [List.filter_cons_of_neg (by simpa using hpy),
        List.filter_cons_of_pos (by simpa using hj)]
    rw [dedupFirst, dedupFirstAux, if_neg (by simp)]
    have : ∀ (l : List String),
        ("java" :: l).take 12 = "java" :: l.take 11 := fun l => rfl
    rw [this]
    simp

/-- C10 witness: a text containing "javascript" on which the theorem
applies concretely. -/
theorem javascript_implies_java_witness :
    containsSub "javascript".data (jsToLower "javascript rocks").data = true ∧
    "java" ∈ extractSkills "javascript rocks" :=
  ⟨by decide, javascript_implies_java "javascript rocks" (by decide)⟩

/-- C8 counterexample: the dispatcher does not enforce non-emptiness
of the extracted text — with a PDF engine that extracts the empty
string (as `pdf-parse` does on a PDF without a text layer) the
supported mime type `application/pdf` yields `.ok ""` and no error,
refuting "never returns the empty string silently". -/
theorem extract_dispatch_counterexample :
    ¬ (∀ s : String,
        extractTextFromFile
          ⟨fun _ => .ok "", fun _ => .ok "", fun _ => .ok ""⟩
          ([] : Buffer) "application/pdf" = .ok s → s ≠ "") := by
  intro hclaim
  exact hclaim "" rfl rfl

/-- C8 amended: `extractTextFromFile` returns exactly the dispatched
extractor's result for each supported mime type — text exactly when
the engine produced text (possibly empty), the corresponding
fixed error message when the Word/OCR engine failed — and every other
mime type raises the unsupported-format error; it never invents a
result of its own. -/
theorem extract_dispatch_amended :
    ∀ (ex : Extractors) (buffer : Buffer),
      extractTextFromFile ex buffer "application/pdf" = ex.pdfParseText buffer ∧
      extractTextFromFile ex buffer "application/msword" = extractTextFromWord ex buffer ∧
      extractTextFromFile ex buffer
          "application/vnd.openxmlformats-officedocument.wordprocessingml.document" =
        extractTextFromWord ex buffer ∧
      (∀ mimetype : String, jsStartsWith "image/" mimetype = true →
        extractTextFromFile ex buffer mimetype = extractTextFromImage ex buffer) ∧
      (∀ mimetype : String, mimetype ≠ "application/pdf" →
        mimetype ≠ "application/msword" →
        mimetype ≠ "application/vnd.openxmlformats-officedocument.wordprocessingml.document" →
        jsStartsWith "image/" mimetype = false →
        extractTextFromFile ex buffer mimetype = .error "Unsupported file type") ∧
      (∀ e : String, ex.mammothRawText buffer = .error e →
        extractTextFromWord ex buffer = .error "Failed to extract text from Word document") ∧
      (∀ e : String, ex.tesseractText buffer = .error e →
        extractTextFromImage ex buffer = .error "Failed to extract text from image using OCR") := by
  intro ex buffer
  refine ⟨rfl, rfl, rfl, ?_, ?_, ?_, ?_⟩
  · intro mimetype hmt
    have h1 : ¬ mimetype = "application/pdf" := by
      rintro rfl; exact absurd hmt (by decide)
    have h2 : ¬ (mimetype = "application/msword" ∨ mimetype =
        "application/vnd.openxmlformats-officedocument.wordprocessingml.document") := by
      rintro (rfl | rfl) <;> exact absurd hmt (by decide)
    unfold extractTextFromFile
    rw [if_neg h1, if_neg h2, if_pos hmt]
  · intro mimetype h1 h2 h3 h4
    unfold extractTextFromFile
    rw [if_neg h1, if_neg (not_or.mpr ⟨h2, h3⟩), if_neg (by simp [h4])]
  · intro e he
    unfold extractTextFromWord
    rw [he]
  · intro e he
    unfold extractTextFromImage
    rw [he]

/-- C8 witness: concrete dispatches exercising the image, unsupported
and Word-error branches via the amended theorem. -/
theorem extract_dispatch_amended_witness :
    extractTextFromFile
      ⟨fun _ => .ok "pdf text", fun _ => .ok "word text", fun _ => .ok "ocr text"⟩
      ([] : Buffer) "image/png" =
      extractTextFromImage
        ⟨fun _ => .ok "pdf text", fun _ => .ok "word text", fun _ => .ok "ocr text"⟩
        ([] : Buffer) ∧
    extractTextFromFile
      ⟨fun _ => .ok "pdf text", fun _ => .ok "word text", fun _ => .ok "ocr text"⟩
      ([] : Buffer) "text/plain" = .error "Unsupported file type" ∧
    extractTextFromWord
      ⟨fun _ => .ok "", fun _ => .error "engine failure", fun _ => .ok ""⟩
      ([] : Buffer) = .error "Failed to extract text from Word document" :=
  ⟨(extract_dispatch_amended _ _).2.2.2.1 "image/png" (by decide),
   (extract_dispatch_amended _ _).2.2.2.2.1 "text/plain"
     (by decide) (by decide) (by decide) (by decide),
   (extract_dispatch_amended _ _).2.2.2.2.2.1 "engine failure" rfl⟩

/-! ## TF-IDF symmetry and degeneracy lemmas -/

theorem mem_termList {s t : String} : t ∈ termList s ↔ t ∈ wordTokens s :=
  mem_dedupFirst _ _

theorem mem_allTerms {a b t : String} :
    t ∈ allTerms a b ↔ t ∈ wordTokens a ∨ t ∈ wordTokens b := by
  unfold allTerms
  rw [mem_dedupFirst, List.mem_append, mem_termList, mem_termList]

theorem allTerms_nodup (a b : String) : (allTerms a b).Nodup :=
  dedupFirst_nodup _

theorem allTerms_perm (a b : String) : (allTerms a b).Perm (allTerms b a) := by
  rw [List.perm_ext_iff_of_nodup (allTerms_nodup a b) (allTerms_nodup b a)]
  intro t
  rw [mem_allTerms, mem_allTerms]
  exact or_comm

theorem df_comm (a b t : String) : df a b t = df b a t :=
  add_comm _ _

theorem idf_comm (a b t : String) : idf a b t = idf b a t := by
  unfold idf
  rw [df_comm]

theorem tfidfVec_comm (doc a b t : String) :
    tfidfVec doc a b t = tfidfVec doc b a t := by
  unfold tfidfVec
  rw [idf_comm]

theorem dotProduct_comm (a b : String) : dotProduct a b = dotProduct b a := by
  unfold dotProduct
  rw [((allTerms_perm a b).map
    (fun t => tfidfVec a a b t * tfidfVec b a b t)).sum_eq]
  congr 1
  apply List.map_congr_left
  intro t _
  rw [tfidfVec_comm a a b, tfidfVec_comm b a b, mul_comm]

theorem magnitude_comm (doc a b : String) :
    magnitude doc a b = magnitude doc b a := by
  unfold magnitude
  congr 1
  rw [((allTerms_perm a b).map
    (fun t => tfidfVec doc a b t * tfidfVec doc a b t)).sum_eq]
  congr 1
  apply List.map_congr_left
  intro t _
  rw [tfidfVec_comm doc a b]

/-- C3: `calculateMatchScore` is symmetric in its two text
arguments. -/
theorem match_score_symmetric :
    ∀ A B : String, calculateMatchScore A B = calculateMatchScore B A := by
  intro A B
  unfold calculateMatchScore
  rw [magnitude_comm B B A, magnitude_comm A B A, dotProduct_comm B A,
      mul_comm (magnitude B A B) (magnitude A A B)]
  by_cases h1 : A = "" ∨ B = ""
  · rw [if_pos h1, if_pos (Or.symm h1)]
  · rw [if_neg h1, if_neg (fun h : B = "" ∨ A = "" => h1 (Or.symm h))]
    by_cases h2 : magnitude A A B = 0 ∨ magnitude B A B = 0
    · rw [if_pos h2, if_pos (Or.symm h2)]
    · rw [if_neg h2,
          if_neg (fun h : magnitude B A B = 0 ∨ magnitude A A B = 0 => h2 (Or.symm h))]

/-- The idf weight of a term occurring in both documents,
`1 + log(2/3)`, is strictly positive (because `2/3 > exp (-1)`). -/
theorem idf_shared_pos : (0 : ℝ) < 1 + Real.log (2 / 3) := by
  have h32 : (0 : ℝ) < 3 / 2 := by norm_num
  have hlog : Real.log (3 / 2) < 1 := by
    rw [Real.log_lt_iff_lt_exp h32]
    calc (3 : ℝ) / 2 < 2.7182818283 := by norm_num
      _ < Real.exp 1 := Real.exp_one_gt_d9
  have h23 : (2 : ℝ) / 3 = (3 / 2)⁻¹ := by norm_num
  rw [h23, Real.log_inv]
  linarith

/-- C4 counterexample: the single-space string is a non-empty text, yet
scoring it against itself yields 0, not 100 — it has no word tokens,
so both TF-IDF vectors are zero and the zero-magnitude guard fires. -/
theorem identical_text_score_counterexample :
    (" " : String) ≠ "" ∧ calculateMatchScore " " " " ≠ 100 := by
  have hterms : allTerms " " " " = [] := by decide
  have hmag : magnitude " " " " " " = 0 := by
    unfold magnitude
    rw [hterms]
    simp
  have h0 : calculateMatchScore " " " " = 0 := by
    unfold calculateMatchScore
    rw [if_neg (by decide : ¬((" " : String) = "" ∨ (" " : String) = "")),
        if_pos (Or.inl hmag)]
  exact ⟨by decide, by rw [h0]; norm_num⟩

/-- C4 amended: for every text whose tokenization is non-empty (at
least one word-character run), scoring the text against itself yields
exactly 100.00 — the two TF-IDF vectors coincide and are non-zero, so
the cosine similarity is 1, scaled and rounded to 100. -/
theorem identical_text_score_100 :
    ∀ T : String, wordTokens T ≠ [] → calculateMatchScore T T = 100 := by
  intro T hTok
  have hTne : T ≠ "" := fun h => hTok (by rw [h]; decide)
  have hmem : ∀ t ∈ allTerms T T, t ∈ wordTokens T := by
    intro t ht
    rcases mem_allTerms.mp ht with h | h <;> exact h
  have hvecpos : ∀ t ∈ allTerms T T, 0 < tfidfVec T T T t := by
    intro t ht
    unfold tfidfVec
    apply mul_pos
    · have htf : 0 < tf T t := by
        unfold tf
        rw [List.count_pos_iff]
        exact hmem t ht
      exact_mod_cast htf
    · have hd : df T T t = 2 := by
        unfold df
        rw [if_pos (hmem t ht)]
      unfold idf
      rw [hd]
      have h23 : (2 : ℝ) / (1 + (2 : ℕ)) = 2 / 3 := by norm_num
      rw [h23]
      exact idf_shared_pos
  set S := ((allTerms T T).map (fun t => tfidfVec T T T t * tfidfVec T T T t)).sum with hSdef
  have hne : allTerms T T ≠ [] := by
    rcases List.exists_mem_of_ne_nil (wordTokens T) hTok with ⟨w, hw⟩
    exact List.ne_nil_of_mem (mem_allTerms.mpr (Or.inl hw))
  have hSpos : 0 < S := by
    rw [hSdef]
    apply List.sum_pos
    · intro x hx
      rcases List.mem_map.mp hx with ⟨t, ht, rfl⟩
      exact mul_pos (hvecpos t ht) (hvecpos t ht)
    · simp [hne]
  have hdot : dotProduct T T = S := rfl
  have hmagS : magnitude T T T = Real.sqrt S := rfl
  unfold calculateMatchScore
  rw [if_neg (by simp [hTne] : ¬(T = "" ∨ T = ""))]
  have hmag_ne : ¬ (magnitude T T T = 0 ∨ magnitude T T T = 0) := by
    rw [hmagS, or_self]
    exact (Real.sqrt_pos.mpr hSpos).ne'
  rw [if_neg hmag_ne, hdot, hmagS, Real.mul_self_sqrt hSpos.le, div_self hSpos.ne']
  have hr : jsRound (1 * 100 * 100) = 10000 := by
    unfold jsRound
    rw [Int.floor_eq_iff]
    norm_num
  rw [hr]
  norm_num

/-- C4 witness: a concrete text with a token, scored at 100 against
itself by the amended theorem. -/
theorem identical_text_score_100_witness :
    wordTokens "hello" ≠ [] ∧ calculateMatchScore "hello" "hello" = 100 :=
  ⟨by decide, identical_text_score_100 "hello" (by decide)⟩

/-- C5: `calculateMatchScore` returns 0 whenever either text is empty,
the two texts share no vocabulary, or either TF-IDF vector has zero
magnitude; the embedding is a total function (the route's local
`catch` also degrades to 0), so no input can abort a ranking batch. -/
theorem degenerate_score_zero :
    ∀ A B : String,
      (A = "" ∨ B = "" ∨ (∀ t ∈ wordTokens A, t ∉ wordTokens B) ∨
        magnitude A A B = 0 ∨ magnitude B A B = 0) →
      calculateMatchScore A B = 0 := by
  intro A B hdeg
  unfold calculateMatchScore
  by_cases h1 : A = "" ∨ B = ""
  · rw [if_pos h1]
  · rw [if_neg h1]
    by_cases h2 : magnitude A A B = 0 ∨ magnitude B A B = 0
    · rw [if_pos h2]
    · rw [if_neg h2]
      have hdisj : ∀ t ∈ wordTokens A, t ∉ wordTokens B := by
        rcases hdeg with h | h | h | h | h
        · exact absurd (Or.inl h) h1
        · exact absurd (Or.inr h) h1
        · exact h
        · exact absurd (Or.inl h) h2
        · exact absurd (Or.inr h) h2
      have hdot : dotProduct A B = 0 := by
        unfold dotProduct
        apply List.sum_eq_zero
        intro x hx
        rcases List.mem_map.mp hx with ⟨t, ht, rfl⟩
        rcases mem_allTerms.mp ht with hA | hB
        · have htf : tf B t = 0 := by
            unfold tf
            rw [List.count_eq_zero]
            exact hdisj t hA
          unfold tfidfVec
          rw [htf, Nat.cast_zero, zero_mul, mul_zero]
        · by_cases hA2 : t ∈ wordTokens A
          · have htf : tf B t = 0 := by
              unfold tf
              rw [List.count_eq_zero]
              exact hdisj t hA2
            unfold tfidfVec
            rw [htf, Nat.cast_zero, zero_mul, mul_zero]
          · have htf : tf A t = 0 := by
              unfold tf
              rw [List.count_eq_zero]
              exact hA2
            unfold tfidfVec
            rw [htf, Nat.cast_zero, zero_mul, zero_mul]
      rw [hdot, zero_div, zero_mul, zero_mul]
      have hr : jsRound 0 = 0 := by
        unfold jsRound
        rw [zero_add, Int.floor_eq_iff]
        norm_num
      rw [hr]
      norm_num

/-- C5 witness: two non-empty texts with disjoint vocabularies score
exactly 0 by the theorem. -/
theorem degenerate_score_zero_witness :
    (∀ t ∈ wordTokens "cat", t ∉ wordTokens "dog") ∧
    calculateMatchScore "cat" "dog" = 0 :=
  ⟨by decide, degenerate_score_zero "cat" "dog" (Or.inr (Or.inr (Or.inl (by decide))))⟩

end ResumeAnalyzer
